import Mathlib

/-!
Shallow embedding of the gradio-mcp-screenshotter pipeline
(src/app.py and src/llm_analyzer.py) and proofs of the frozen claims.

Python string primitives used by the source (`str.split`, `str.startswith`,
`str.strip`, `str.lower`, `str.split(':', 1)[1]`) are modelled over
`List Char` with Python's semantics and wrapped into `String` at the
boundaries.  External library behaviour (urllib parsing/joining, Selenium,
the OpenAI client, the thread pool's completion order) is modelled as
explicit inputs / oracles; everything else is translated line by line from
the source.
-/

namespace Screenshotter

/-! ### Python-style string primitives -/

/-- Python `str.split(sep)` for a one-character separator: always returns at
least one (possibly empty) chunk, keeps empty chunks. -/
def pySplit (sep : Char) : List Char → List (List Char)
  | [] => [[]]
  | c :: rest =>
    if c = sep then [] :: pySplit sep rest
    else
      match pySplit sep rest with
      | [] => [[c]]
      | g :: gs => (c :: g) :: gs

/-- Python `text.split('\n')`, as a list of `String` lines. -/
def pyLines (s : String) : List String :=
  (pySplit '\n' s.data).map (fun l => ⟨l⟩)

/-- Python `s.startswith(pre)`. -/
def pyStartsWith (s pre : String) : Bool :=
  pre.data.isPrefixOf s.data

/-- The characters after the first `':'` of the list (Python
`line.split(':', 1)[1]`, assuming a colon is present). -/
def afterColon : List Char → List Char
  | [] => []
  | c :: rest => if c = ':' then rest else afterColon rest

/-- Python `line.split(':', 1)[1]` as a `String` operation. -/
def afterFirstColon (s : String) : String :=
  ⟨afterColon s.data⟩

/-- Python `str.strip()` (remove leading and trailing whitespace). -/
def pyStrip (s : String) : String :=
  ⟨((s.data.dropWhile Char.isWhitespace).reverse.dropWhile Char.isWhitespace).reverse⟩

/-- Python `str.lower()` (ASCII case folding suffices for this source). -/
def pyLower (s : String) : String :=
  ⟨s.data.map Char.toLower⟩

/-! ### llm_analyzer.py: data model and response parsing -/

/-- `LLMResponse` (llm_analyzer.py lines 33-35): per-image finding. -/
structure LLMResponse where
  issues_found : Bool
  details : String
  deriving Repr, DecidableEq

/-- `AnalysisSummary` (llm_analyzer.py lines 37-41). -/
structure AnalysisSummary where
  summary : String
  common_issues : List String
  overall_assessment : String
  all_passed : Bool
  deriving Repr, DecidableEq

/-- `parse_llm_response` (llm_analyzer.py lines 43-57): find the first line
starting with `ISSUES_FOUND:` and the first starting with `DETAILS:`; the
boolean is the stripped, lowercased text after the colon compared with
`"true"`; if either `next(...)` raises (no such line) the except-branch
returns the fallback finding. -/
def parse_llm_response (text : String) : LLMResponse :=
  let lines := pyLines text
  match lines.find? (fun l => pyStartsWith l "ISSUES_FOUND:"),
        lines.find? (fun l => pyStartsWith l "DETAILS:") with
  | some issuesLine, some detailsLine =>
    { issues_found := pyLower (pyStrip (afterFirstColon issuesLine)) == "true"
      details := pyStrip (afterFirstColon detailsLine) }
  | _, _ => { issues_found := false, details := "Error parsing response" }

/-- Python `[x.strip() for x in s.split(',') if x.strip()]` used for
`common_issues` (llm_analyzer.py line 66). -/
def splitIssues (s : String) : List String :=
  ((pySplit ',' s.data).map (fun l => pyStrip ⟨l⟩)).filter (fun t => t ≠ "")

/-- `parse_summary_response` (llm_analyzer.py lines 59-84): three labeled
lines, with a single fallback if any of the three is missing; `all_passed`
is passed through unchanged on both paths. -/
def parse_summary_response (text : String) (all_passed : Bool) : AnalysisSummary :=
  let lines := pyLines text
  match lines.find? (fun l => pyStartsWith l "SUMMARY:"),
        lines.find? (fun l => pyStartsWith l "COMMON_ISSUES:"),
        lines.find? (fun l => pyStartsWith l "OVERALL_ASSESSMENT:") with
  | some sLine, some cLine, some oLine =>
    { summary := pyStrip (afterFirstColon sLine)
      common_issues := splitIssues (pyStrip (afterFirstColon cLine))
      overall_assessment := pyStrip (afterFirstColon oLine)
      all_passed := all_passed }
  | _, _, _ =>
    { summary := "Error parsing summary"
      common_issues := []
      overall_assessment := "Error parsing assessment"
      all_passed := all_passed }

/-! ### llm_analyzer.py: analyze_screenshots (lines 86-195)

The OpenAI client is external: the model's reply to the i-th per-image
request is supplied by the oracle `respond` (applied to the screenshot
reference), and the reply to the single Phase-2 summary request by
`summaryResp`.  `calls` counts every `client.chat.completions.create`
invocation the function performs. -/

/-- Result of one `analyze_screenshots` run: the Phase-1 findings in
submission order, the Phase-2 summary, and the number of inference calls
made. -/
structure AnalyzeRun where
  findings : List LLMResponse
  summary : AnalysisSummary
  calls : Nat
  deriving Repr, DecidableEq

/-- `analyze_screenshots` (llm_analyzer.py lines 86-195): one inference call
per screenshot, parsed with `parse_llm_response`; then
`all_passed = all(issues_found_list)` (line 184) and one summary inference
call parsed with `parse_summary_response`. -/
def analyze_screenshots (respond : String → String) (summaryResp : String)
    (screenshots : List String) : AnalyzeRun :=
  let analyses := screenshots.map (fun s => parse_llm_response (respond s))
  let issues_found_list := analyses.map (fun a => a.issues_found)
  let all_passed := issues_found_list.all (fun b => b)
  let summary := parse_summary_response summaryResp all_passed
  { findings := analyses, summary := summary, calls := screenshots.length + 1 }

/-- Result of `analyze_screenshots_handler`: either the early-return
empty-input message (app.py line 206) or a completed analysis run. -/
inductive HandlerOutput where
  | emptySignal (msg : String)
  | report (run : AnalyzeRun)
  deriving Repr, DecidableEq

/-- Inference calls performed by one handler invocation: none on the
early-return path, the run's count otherwise. -/
def HandlerOutput.inferenceCalls : HandlerOutput → Nat
  | .emptySignal _ => 0
  | .report run => run.calls

/-- `analyze_screenshots_handler` (app.py lines 200-209): galleries are lists
of (image, caption) pairs; if both are empty (Python falsiness of empty
lists) it returns the user-facing message without calling
`analyze_screenshots`; otherwise it pools the image references and runs the
analysis.  The HTML formatting that follows (app.py lines 211-376) is
presentation of the returned data and is not modelled. -/
def analyze_screenshots_handler (respond : String → String) (summaryResp : String)
    (desktop_screenshots mobile_screenshots : List (String × String)) : HandlerOutput :=
  if desktop_screenshots.isEmpty && mobile_screenshots.isEmpty then
    .emptySignal "⚠️ No screenshots available for analysis. Please generate screenshots first."
  else
    let all_screenshots := (desktop_screenshots ++ mobile_screenshots).map (fun s => s.1)
    .report (analyze_screenshots respond summaryResp all_screenshots)

/-! ### app.py: get_urls (lines 75-127)

`urlparse`/`urljoin` are urllib library calls; their outcome for each
anchor of the fetched page is an input: a `LinkRes.ok fullUrl netloc`
records `full_url = urljoin(url, href)` and `parsed_href.netloc`, while
`LinkRes.err` stands for an anchor whose resolution raised (the inner
`except: continue`).  The seed's own `urlparse(url).netloc` is the
`seedNetloc` input.  The whole fetch can fail (`requests.get` or parsing
raising), which is the `Except.error` case of `fetched`. -/

/-- Outcome of resolving one `<a href>` of the fetched page. -/
inductive LinkRes where
  | ok (fullUrl : String) (netloc : String)
  | err
  deriving Repr, DecidableEq

/-- Base-domain extraction (app.py lines 84-88): last two dot-separated
labels of the host, or the host verbatim when it has at most two labels. -/
def baseDomainOf (netloc : String) : String :=
  let parts := (pySplit '.' netloc.data).map (fun l => (⟨l⟩ : String))
  if parts.length > 2 then String.intercalate "." (parts.drop (parts.length - 2))
  else netloc

/-- Contiguous-substring test on character lists. -/
def containsSub (pat : List Char) : List Char → Bool
  | [] => pat.isEmpty
  | c :: rest => pat.isPrefixOf (c :: rest) || containsSub pat rest

/-- Python `base_domain in parsed_href.netloc` (substring containment). -/
def pyContains (hay pat : String) : Bool :=
  containsSub pat.data hay.data

/-- The filter of app.py line 111: keep the resolved URL when the netloc is
truthy (non-empty) and contains the base domain as a substring. -/
def keepLink (base : String) : LinkRes → Option String
  | .err => none
  | .ok fullUrl netloc =>
    if netloc ≠ "" && pyContains netloc base then some fullUrl else none

/-- Insertion into a strictly sorted list, dropping duplicates: building
block for Python's `sorted(list(set(...)))`. -/
def insertSorted (x : String) : List String → List String
  | [] => [x]
  | y :: ys =>
    if x < y then x :: y :: ys
    else if x = y then y :: ys
    else y :: insertSorted x ys

/-- Python `sorted(list(set(l)))`: the strictly sorted list of the distinct
elements of `l`. -/
def sortedDedup (l : List String) : List String :=
  l.foldr insertSorted []

/-- `get_urls` (app.py lines 75-127): on a fetch/parse failure return
`[url]`; otherwise keep the resolved links passing the domain filter, add
the seed URL, deduplicate and sort. -/
def get_urls (url : String) (seedNetloc : String)
    (fetched : Except String (List LinkRes)) : List String :=
  match fetched with
  | .error _ => [url]
  | .ok links =>
    let base_domain := baseDomainOf seedNetloc
    let kept := links.filterMap (keepLink base_domain)
    sortedDedup (url :: kept)

/-! ### app.py: take_screenshot (lines 129-159)

Selenium is external; a `CaptureEnv` fixes which of the fallible steps of
one call succeed (driver construction, `driver.get`, and
`get_screenshot_as_png` can raise; the temp-file write can raise too) and
what data they produce.  The state records whether this call's browser
session exists and is open, plus the process-wide `temp_files` registry
(app.py line 28).  The `try`-body is `captureBody` (an `Except` models a
raised exception); `take_screenshot` wraps it with the `except` handler of
lines 155-159. -/

/-- State of the browser session owned by one capture call: not yet
created, created and open, or quit. -/
inductive DriverState where
  | noDriver
  | openD
  | closedD
  deriving Repr, DecidableEq

/-- Process state visible to one `take_screenshot` call. -/
structure CapState where
  driver : DriverState
  temp_files : List String
  deriving Repr, DecidableEq

/-- Which steps of this capture succeed and what they yield. -/
structure CaptureEnv where
  setupOk : Bool
  navOk : Bool
  shotOk : Bool
  writeOk : Bool
  shotData : String
  tmpName : String
  deriving Repr, DecidableEq

/-- The `try`-body of `take_screenshot` (app.py lines 131-153): set up the
driver, navigate, snapshot, quit, then either return the base64 payload or
write a temp file, register it in `temp_files`, and return its path.  An
`Except.error` is a raised exception at that point. -/
def captureBody (env : CaptureEnv) (return_base64 : Bool) (st : CapState) :
    Except String String × CapState :=
  if !env.setupOk then (.error "setup_driver failed", st)
  else
    let st := { st with driver := .openD }
    if !env.navOk then (.error "driver.get failed", st)
    else if !env.shotOk then (.error "get_screenshot_as_png failed", st)
    else
      let st := { st with driver := .closedD }
      if return_base64 then (.ok ("base64:" ++ env.shotData), st)
      else if !env.writeOk then (.error "tempfile write failed", st)
      else (.ok env.tmpName, { st with temp_files := env.tmpName :: st.temp_files })

/-- The `except` handler's `if 'driver' in locals(): driver.quit()` (app.py
lines 157-158): quit the session when one was created. -/
def quitIfExists (st : CapState) : CapState :=
  match st.driver with
  | .noDriver => st
  | _ => { st with driver := .closedD }

/-- `take_screenshot` (app.py lines 129-159): run the body; on a raised
exception, defensively quit any created driver and return `none` (Python
`None`) instead of propagating. -/
def take_screenshot (env : CaptureEnv) (return_base64 : Bool) (st : CapState) :
    Option String × CapState :=
  match captureBody env return_base64 st with
  | (.ok s, st') => (some s, st')
  | (.error _, st') => (none, quitIfExists st')

/-! ### app.py: process_url capture batches (lines 161-198)

`ThreadPoolExecutor.map` submits one task per URL and returns results
aligned with the inputs even though tasks finish in an arbitrary order.
We model the pool explicitly: each task writes its result into its own
slot of a result vector, in an arbitrary completion order given as a list
of task indices; `executor.map`'s returned list is the final slot vector.
The per-task work is `take_screenshot`, abstracted here to its
input/output relation `capture : String → Option String` (each task
depends only on its URL). -/

/-- Result slots after the pool has run the given completion order: task
`i` stores `capture urls[i]` into slot `i` when it completes. -/
def poolRun (capture : String → Option String) (urls : List String)
    (order : List Nat) : List (Option String) :=
  order.foldl (fun slots i => slots.set i (capture (urls.getD i "")))
    (List.replicate urls.length none)

/-- Python truthiness of `screenshot` (app.py line 190): `None` and the
empty string are falsy. -/
def truthy : Option String → Bool
  | none => false
  | some s => s ≠ ""

/-- The per-profile collection loop of `process_url` (app.py lines 187-194):
zip the URL list with the pool's result list and keep
`(screenshot, "URL: " + url)` for each truthy screenshot, in zip order. -/
def collectBatch (urls : List String) (shots : List (Option String)) :
    List (String × String) :=
  (urls.zip shots).foldr
    (fun p acc => match p.2 with
      | some s => if s ≠ "" then (s, "URL: " ++ p.1) :: acc else acc
      | none => acc) []

/-- One device profile's capture batch in `process_url`: run the pool over
the URLs with some completion order, then collect the successes. -/
def processBatch (capture : String → Option String) (urls : List String)
    (order : List Nat) : List (String × String) :=
  collectBatch urls (poolRun capture urls order)

/-! ### Helper lemmas -/

theorem isPrefixOf_append_self (l m : List Char) : l.isPrefixOf (l ++ m) = true := by
  induction l with
  | nil => simp [List.isPrefixOf]
  | cons c cs ih => simp [List.isPrefixOf, ih]

theorem pyStartsWith_append_self (pre rest : String) :
    pyStartsWith (pre ++ rest) pre = true := by
  show List.isPrefixOf _ _ = true
  exact isPrefixOf_append_self pre.data rest.data

/-! ### Claim theorems -/

/-- C10: when the response has a line starting with `ISSUES_FOUND:` and a
line starting with `DETAILS:`, the parsed finding's flag is `true` exactly
when the text after `ISSUES_FOUND:`, stripped and lowercased, equals
`"true"` (so `yes`, `1` or garbage give `false`), and the details are the
response's actual details text — the error-parsing fallback is not used. -/
theorem parse_llm_response_wellformed (text v d : String)
    (hI : (pyLines text).find? (fun l => pyStartsWith l "ISSUES_FOUND:") =
      some ("ISSUES_FOUND:" ++ v))
    (hD : (pyLines text).find? (fun l => pyStartsWith l "DETAILS:") =
      some ("DETAILS:" ++ d)) :
    parse_llm_response text =
      { issues_found := pyLower (pyStrip v) == "true", details := pyStrip d } := by
  simp only [parse_llm_response]
  rw [hI, hD]
  rfl

/-- Witness for C10: a response whose flag value is `yes` parses to
`issues_found = false` with the response's own details text. -/
theorem parse_llm_response_wellformed_witness :
    parse_llm_response "ISSUES_FOUND: yes\nDETAILS: all good" =
      { issues_found := false, details := "all good" } := by
  rw [parse_llm_response_wellformed "ISSUES_FOUND: yes\nDETAILS: all good"
    " yes" " all good" (by decide) (by decide)]
  decide

/-- C5 counterexample: on a response missing the `DETAILS:` line the code's
fallback details string is `"Error parsing response"` (capital E), not the
claimed `"error parsing response"`. -/
theorem parse_llm_response_fallback_capitalization :
    parse_llm_response "ISSUES_FOUND: true" ≠
      { issues_found := false, details := "error parsing response" } ∧
    parse_llm_response "ISSUES_FOUND: true" =
      { issues_found := false, details := "Error parsing response" } := by
  constructor
  · decide
  · decide

/-- C5 (amended): if the response lacks an `ISSUES_FOUND:` line or lacks a
`DETAILS:` line, parsing returns the fallback finding
`{issues_found := false, details := "Error parsing response"}` and, being a
total function, raises nothing. -/
theorem parse_llm_response_missing_label_fallback (text : String)
    (h : (pyLines text).find? (fun l => pyStartsWith l "ISSUES_FOUND:") = none ∨
         (pyLines text).find? (fun l => pyStartsWith l "DETAILS:") = none) :
    parse_llm_response text =
      { issues_found := false, details := "Error parsing response" } := by
  simp only [parse_llm_response]
  rcases h with h | h
  · rw [h]
  · rw [h]
    cases (pyLines text).find? (fun l => pyStartsWith l "ISSUES_FOUND:") <;> rfl


/-- Witness for C5: a response with neither label parses to the fallback. -/
theorem parse_llm_response_missing_label_fallback_witness :
    parse_llm_response "hello" =
      { issues_found := false, details := "Error parsing response" } :=
  parse_llm_response_missing_label_fallback "hello" (Or.inl (by decide))

/-- C4: invoked with zero images (both galleries empty), the handler
returns the user-facing empty-input message and performs no inference
calls at all. -/
theorem handler_empty_input_no_calls (respond : String → String) (summaryResp : String) :
    analyze_screenshots_handler respond summaryResp [] [] =
      .emptySignal "⚠️ No screenshots available for analysis. Please generate screenshots first." ∧
    (analyze_screenshots_handler respond summaryResp [] []).inferenceCalls = 0 := by
  exact ⟨rfl, rfl⟩

/-- C6: any fetch or parse failure during link discovery makes `get_urls`
return the one-element list holding just the seed URL; the `try/except`
shape makes this a normal return, not a propagated failure. -/
theorem get_urls_failure_returns_seed (url seedNetloc e : String) :
    get_urls url seedNetloc (.error e) = [url] := rfl

/-- C1: evaluation at the failing input.  One screenshot whose model
response reports an issue yields the single finding
`{issues_found := true, ...}`, yet the code's
`all_passed = all(issues_found_list)` (llm_analyzer.py line 184) makes the
summary's `all_passed` come out `true` — the code inverts the sense
demanded by the claim and by the field's own description
(`"True if all screenshots passed, False if any failed"`). -/
theorem all_passed_inverted_at_failing_input :
    (analyze_screenshots (fun _ => "ISSUES_FOUND: true\nDETAILS: broken layout")
      "SUMMARY: bad\nCOMMON_ISSUES: layout\nOVERALL_ASSESSMENT: poor"
      ["shot1.png"]).findings =
      [{ issues_found := true, details := "broken layout" }] ∧
    (analyze_screenshots (fun _ => "ISSUES_FOUND: true\nDETAILS: broken layout")
      "SUMMARY: bad\nCOMMON_ISSUES: layout\nOVERALL_ASSESSMENT: poor"
      ["shot1.png"]).summary.all_passed = true := by
  constructor
  · decide
  · decide

/-! ### Sortedness and uniqueness of `sortedDedup` -/

theorem mem_insertSorted (a x : String) (l : List String) :
    a ∈ insertSorted x l ↔ a = x ∨ a ∈ l := by
  induction l with
  | nil => simp [insertSorted]
  | cons y ys ih =>
    rw [insertSorted]
    by_cases hlt : x < y
    · rw [if_pos hlt]
      simp only [List.mem_cons]
    · rw [if_neg hlt]
      by_cases heq : x = y
      · subst heq
        rw [if_pos rfl]
        simp only [List.mem_cons]
        tauto
      · rw [if_neg heq]
        simp only [List.mem_cons, ih]
        tauto

theorem sorted_insertSorted (x : String) (l : List String)
    (h : l.Sorted (· < ·)) : (insertSorted x l).Sorted (· < ·) := by
  induction l with
  | nil => simp [insertSorted]
  | cons y ys ih =>
    rw [List.sorted_cons] at h
    obtain ⟨hy, hys⟩ := h
    rw [insertSorted]
    by_cases hlt : x < y
    · rw [if_pos hlt, List.sorted_cons]
      refine ⟨?_, ?_⟩
      · intro b hb
        rw [List.mem_cons] at hb
        rcases hb with rfl | hb
        · exact hlt
        · exact lt_trans hlt (hy b hb)
      · rw [List.sorted_cons]
        exact ⟨hy, hys⟩
    · rw [if_neg hlt]
      by_cases heq : x = y
      · rw [if_pos heq, List.sorted_cons]
        exact ⟨hy, hys⟩
      · rw [if_neg heq, List.sorted_cons]
        refine ⟨?_, ih hys⟩
        intro b hb
        rw [mem_insertSorted] at hb
        rcases hb with hb | hb
        · subst hb
          rcases lt_trichotomy b y with h' | h' | h'
          · exact absurd h' hlt
          · exact absurd h' heq
          · exact h'
        · exact hy b hb

theorem sorted_sortedDedup (l : List String) :
    (sortedDedup l).Sorted (· < ·) := by
  induction l with
  | nil => simp [sortedDedup]
  | cons x xs ih => exact sorted_insertSorted x (sortedDedup xs) ih

theorem mem_sortedDedup (a : String) (l : List String) :
    a ∈ sortedDedup l ↔ a ∈ l := by
  induction l with
  | nil => simp [sortedDedup]
  | cons x xs ih =>
    show a ∈ insertSorted x (sortedDedup xs) ↔ _
    rw [mem_insertSorted, ih]
    simp

/-- The suffix-boundary domain test the claim describes:
`host == base || host.endsWith("." + base)`. -/
def suffixBoundaryMatch (host base : String) : Bool :=
  host == base || ("." ++ base).data.isSuffixOf host.data

/-- C2: evaluation at the failing input.  The code's filter (app.py line
111) is a substring test, so a link on host `example.com.attacker.net` —
which neither equals the base domain `example.com` nor ends with
`.example.com` — is kept in the discovered target list, where the claim
says it must be excluded. -/
theorem substring_filter_keeps_foreign_host :
    "https://example.com.attacker.net/x" ∈
      get_urls "https://example.com" "example.com"
        (.ok [.ok "https://example.com.attacker.net/x" "example.com.attacker.net"]) ∧
    suffixBoundaryMatch "example.com.attacker.net" "example.com" = false := by
  constructor
  · show _ ∈ sortedDedup _
    rw [mem_sortedDedup]
    decide
  · decide

/-- C7: for every seed and every fetch outcome, the discovered list is
lexicographically sorted, duplicate-free, and contains the seed URL. -/
theorem get_urls_sorted_unique_contains_seed (url seedNetloc : String)
    (fetched : Except String (List LinkRes)) :
    (get_urls url seedNetloc fetched).Sorted (· < ·) ∧
    (get_urls url seedNetloc fetched).Nodup ∧
    url ∈ get_urls url seedNetloc fetched := by
  cases fetched with
  | error e => simp [get_urls]
  | ok links =>
    have hsorted : (get_urls url seedNetloc (.ok links)).Sorted (· < ·) :=
      sorted_sortedDedup _
    refine ⟨hsorted, hsorted.nodup, ?_⟩
    show url ∈ sortedDedup (url :: _)
    rw [mem_sortedDedup]
    exact List.mem_cons_self url _

/-- C8: starting from a state with no session for this call,
`take_screenshot` leaves no open browser session behind on any path
(success, setup failure, navigation failure, snapshot failure, temp-file
failure), and whenever the `try`-body raises it returns the
capture-failure marker `none` instead of propagating — its return type
carries no exception at all. -/
theorem take_screenshot_contains_failures (env : CaptureEnv) (return_base64 : Bool)
    (st : CapState) (hnd : st.driver = DriverState.noDriver) :
    (take_screenshot env return_base64 st).2.driver ≠ DriverState.openD ∧
    (∀ e st', captureBody env return_base64 st = (Except.error e, st') →
      (take_screenshot env return_base64 st).1 = none) := by
  constructor
  · obtain ⟨d, t⟩ := st
    cases hnd
    obtain ⟨setupOk, navOk, shotOk, writeOk, shotData, tmpName⟩ := env
    cases setupOk <;> cases navOk <;> cases shotOk <;> cases writeOk <;>
      cases return_base64 <;>
      simp [take_screenshot, captureBody, quitIfExists]
  · intro e st' h
    unfold take_screenshot
    rw [h]

/-- Witness for C8: a navigation failure in file-path mode returns `none`
and leaves the session closed. -/
theorem take_screenshot_contains_failures_witness :
    (take_screenshot ⟨true, false, true, true, "png", "/tmp/a.png"⟩ false
      ⟨DriverState.noDriver, []⟩).2.driver ≠ DriverState.openD ∧
    (∀ e st', captureBody ⟨true, false, true, true, "png", "/tmp/a.png"⟩ false
        ⟨DriverState.noDriver, []⟩ = (Except.error e, st') →
      (take_screenshot ⟨true, false, true, true, "png", "/tmp/a.png"⟩ false
        ⟨DriverState.noDriver, []⟩).1 = none) :=
  take_screenshot_contains_failures ⟨true, false, true, true, "png", "/tmp/a.png"⟩
    false ⟨DriverState.noDriver, []⟩ rfl

/-- C9: in file-path mode, whenever `take_screenshot` returns a path, that
path is in the process-wide `temp_files` registry of the state the call
returns — registration happens at creation, before the path escapes. -/
theorem take_screenshot_registers_path (env : CaptureEnv) (st : CapState) (p : String)
    (h : (take_screenshot env false st).1 = some p) :
    p ∈ (take_screenshot env false st).2.temp_files := by
  obtain ⟨setupOk, navOk, shotOk, writeOk, shotData, tmpName⟩ := env
  cases setupOk <;> cases navOk <;> cases shotOk <;> cases writeOk <;>
    simp [take_screenshot, captureBody, quitIfExists] at h ⊢
  subst h
  exact Or.inl rfl

/-- Witness for C9: a fully successful file-mode capture returns its temp
path already registered. -/
theorem take_screenshot_registers_path_witness :
    "/tmp/a.png" ∈ (take_screenshot ⟨true, true, true, true, "png", "/tmp/a.png"⟩
      false ⟨DriverState.noDriver, []⟩).2.temp_files :=
  take_screenshot_registers_path ⟨true, true, true, true, "png", "/tmp/a.png"⟩
    ⟨DriverState.noDriver, []⟩ "/tmp/a.png" rfl

/-! ### The pool's result slots are completion-order independent -/

theorem foldl_set_length (val : Nat → Option String) (order : List Nat)
    (init : List (Option String)) :
    (order.foldl (fun slots i => slots.set i (val i)) init).length = init.length := by
  induction order generalizing init with
  | nil => rfl
  | cons o rest ih =>
    rw [List.foldl_cons, ih, List.length_set]

theorem foldl_set_getElem?_notMem (val : Nat → Option String) (order : List Nat)
    (init : List (Option String)) (i : Nat) (hni : i ∉ order) :
    (order.foldl (fun slots j => slots.set j (val j)) init)[i]? = init[i]? := by
  induction order generalizing init with
  | nil => rfl
  | cons o rest ih =>
    rw [List.mem_cons, not_or] at hni
    rw [List.foldl_cons, ih _ hni.2, List.getElem?_set_ne (fun h => hni.1 h.symm)]

theorem foldl_set_getElem?_mem (val : Nat → Option String) (order : List Nat)
    (init : List (Option String)) (i : Nat) (hmem : i ∈ order)
    (hlen : i < init.length) :
    (order.foldl (fun slots j => slots.set j (val j)) init)[i]? = some (val i) := by
  induction order generalizing init with
  | nil => cases hmem
  | cons o rest ih =>
    rw [List.foldl_cons]
    by_cases hm : i ∈ rest
    · exact ih _ hm (by rw [List.length_set]; exact hlen)
    · have hio : i = o := by
        rcases List.mem_cons.mp hmem with h | h
        · exact h
        · exact absurd h hm
      subst hio
      rw [foldl_set_getElem?_notMem _ _ _ _ hm]
      exact List.getElem?_set_self hlen

/-- As long as every submitted task completes (every index below the URL
count occurs in the completion order), the pool's result slots equal the
in-order map of the capture function over the URLs — completion order is
irrelevant. -/
theorem poolRun_eq_map (capture : String → Option String) (urls : List String)
    (order : List Nat) (hcov : ∀ i, i < urls.length → i ∈ order) :
    poolRun capture urls order = urls.map capture := by
  apply List.ext_getElem?
  intro n
  by_cases hn : n < urls.length
  · rw [poolRun, foldl_set_getElem?_mem _ _ _ _ (hcov n hn)
      (by rw [List.length_replicate]; exact hn)]
    rw [List.getElem?_map, List.getElem?_eq_getElem hn]
    have hd : urls.getD n "" = urls[n] := List.getD_eq_getElem urls "" hn
    rw [hd]
    rfl
  · have h1 : (poolRun capture urls order).length ≤ n := by
      rw [poolRun, foldl_set_length, List.length_replicate]
      exact Nat.le_of_not_lt hn
    have h2 : (urls.map capture).length ≤ n := by
      rw [List.length_map]
      exact Nat.le_of_not_lt hn
    rw [List.getElem?_eq_none h1, List.getElem?_eq_none h2]

theorem collectBatch_map (f : String → Option String) (urls : List String) :
    collectBatch urls (urls.map f) = urls.filterMap (fun u =>
      match f u with
      | some s => if s ≠ "" then some (s, "URL: " ++ u) else none
      | none => none) := by
  induction urls with
  | nil => rfl
  | cons u us ih =>
    show collectBatch (u :: us) (f u :: us.map f) = _
    rw [List.filterMap_cons]
    cases hf : f u with
    | none =>
      show collectBatch us (us.map f) = _
      rw [ih]
    | some s =>
      by_cases hs : s ≠ ""
      · show (if s ≠ "" then (s, "URL: " ++ u) :: collectBatch us (us.map f)
            else collectBatch us (us.map f)) = _
        rw [if_pos hs, ih]
        simp [hs]
      · show (if s ≠ "" then (s, "URL: " ++ u) :: collectBatch us (us.map f)
            else collectBatch us (us.map f)) = _
        rw [if_neg hs, ih]
        simp [hs]

/-- C3: a capture batch's output is exactly the list of successful (truthy)
captures paired with their URL labels, in the relative order of the input
URL list, for every completion order of the concurrent render tasks in
which all submitted tasks finish. -/
theorem processBatch_ordered_successes (capture : String → Option String)
    (urls : List String) (order : List Nat)
    (hcov : ∀ i, i < urls.length → i ∈ order) :
    processBatch capture urls order = urls.filterMap (fun u =>
      match capture u with
      | some s => if s ≠ "" then some (s, "URL: " ++ u) else none
      | none => none) := by
  unfold processBatch
  rw [poolRun_eq_map capture urls order hcov, collectBatch_map]

/-- Witness for C3: over `[u1, u2, u3]` with `u2` failing and completion
order `u3, u1, u2`, the output is `[u1's shot, u3's shot]` in input
order. -/
theorem processBatch_ordered_successes_witness :
    processBatch (fun u => if u = "u2" then none else some ("shot:" ++ u))
      ["u1", "u2", "u3"] [2, 0, 1] =
      [("shot:u1", "URL: u1"), ("shot:u3", "URL: u3")] := by
  rw [processBatch_ordered_successes _ _ _ (by decide)]
  decide

end Screenshotter
